import Mathlib

/-!
# OpenDiablo2: entity-component systems and animated objects

A shallow embedding of

* `d2core/d2systems/movement.go` (`MovementSystem.ProcessEntity`),
* `d2core/d2systems/game_config.go` (`GameConfigSystem`),
* `d2core/d2object/object.go` (`Object`),

followed by the properties proved about them.

Component maps (`map[akara.EID]*Component`) are total functions from entity
identifiers to optional component values.  Floating-point arithmetic is taken
as exact arithmetic over the rationals.
-/

namespace OpenDiablo2

/-! ## Component stores -/

/-- Entity identifier `akara.EID`. -/
abbrev EID := Nat

/-- Modelled from the spec: a component map of `d2components` (the package is
not part of the sources at hand), "per-component-kind mapping from entity
identifier to component value; supports add/get/remove". -/
abbrev Store (α : Type) := EID → Option α

namespace Store

/-- Modelled from the spec: the lookup `GetX(id)` of a component map, returning the
component and whether it was found. -/
def get {α : Type} (m : Store α) (id : EID) : Option α := m id

/-- Writing through the pointer a lookup returned: the entity's component
becomes `v`, every other entity keeps its own. -/
def set {α : Type} (m : Store α) (id : EID) (v : α) : Store α :=
  fun e => if e = id then some v else m e

/-- Modelled from the spec: `AddX(id)` of a component map: an entity that has the
component keeps it, otherwise a zero-valued component is attached. -/
def add {α : Type} (m : Store α) (id : EID) (zero : α) : Store α :=
  fun e => if e = id then some ((m id).getD zero) else m e

/-- Modelled from the spec: `Remove(id)` of a component map. -/
def remove {α : Type} (m : Store α) (id : EID) : Store α :=
  fun e => if e = id then none else m e

end Store

/-! ## `d2systems/movement.go` -/

/-- Modelled from the spec: the 2D vector `d2math.Vector` held by Position and
Velocity components (the package is not part of the sources at hand). -/
structure Vector where
  x : ℚ
  y : ℚ
deriving DecidableEq

namespace Vector

/-- Modelled from the spec: `Vector.Clone`, a copy of the vector. -/
def Clone (v : Vector) : Vector := ⟨v.x, v.y⟩

/-- Modelled from the spec: `Vector.Scale`, the `velocity × dt` of the movement
contract, componentwise. -/
def Scale (v : Vector) (s : ℚ) : Vector := ⟨v.x * s, v.y * s⟩

/-- Modelled from the spec: `Vector.Add`, the `position + ...` of the movement
contract, componentwise. -/
def Add (v o : Vector) : Vector := ⟨v.x + o.x, v.y + o.y⟩

end Vector

/-- The constant `time.Second` counted in nanoseconds, the unit of `time.Duration`. -/
def timeSecond : Int := 1000000000

/-- The fields of `MovementSystem` that `ProcessEntity` reads and writes: the
two injected component maps and `World.TimeDelta` (a `time.Duration`). -/
structure MovementSystem where
  positions : Store Vector
  velocities : Store Vector
  TimeDelta : Int

/-- `MovementSystem.ProcessEntity`. -/
def MovementSystem.ProcessEntity (m : MovementSystem) (id : EID) : MovementSystem :=
  match m.positions.get id with
  | none => m
  | some position =>
    match m.velocities.get id with
    | none => m
    | some velocity =>
      let s : ℚ := (m.TimeDelta : ℚ) / (timeSecond : ℚ)
      { m with positions := m.positions.set id (position.Add (velocity.Clone.Scale s)) }

/-- `MovementSystem.Process` over the entities of the system's subscription. -/
def MovementSystem.Process (m : MovementSystem) (entities : List EID) : MovementSystem :=
  entities.foldl MovementSystem.ProcessEntity m

/-- The movement contract applied to one frame of half a second. -/
def movementExample : MovementSystem :=
  { positions := fun e => if e = 7 then some ⟨10, 20⟩ else none
    velocities := fun e => if e = 7 then some ⟨2, -4⟩ else none
    TimeDelta := 500000000 }

/-! ## Filters and subscriptions -/

/-- The component kinds named by the filters of `NewGameConfigSystem` and
`NewMovementSystem`, and the `Dirty` and `FileSource` kinds the game config
system injects. -/
inductive Kind
  | FilePath | FileType | FileHandle | FileSource | GameConfig | Dirty
  | StringTable | DataDictionary | Palette | PaletteTransform
  | Cof | Dc6 | Dcc | Ds1 | Dt1 | Wav | AnimData
  | Position | Velocity
deriving DecidableEq, Repr

/-- Modelled from the spec: a filter, "expressed as a required set and a
forbidden set" of component kinds. -/
structure Filter where
  required : List Kind
  forbidden : List Kind
deriving DecidableEq, Repr

/-- Modelled from the spec: `akara.NewFilter()`, the builder with nothing
required and nothing forbidden. -/
def NewFilter : Filter := ⟨[], []⟩

/-- Modelled from the spec: `Require(kind)` of the filter builder. -/
def Filter.Require (f : Filter) (k : Kind) : Filter :=
  { f with required := f.required ++ [k] }

/-- Modelled from the spec: `Forbid(kind)` of the filter builder. -/
def Filter.Forbid (f : Filter) (k : Kind) : Filter :=
  { f with forbidden := f.forbidden ++ [k] }

/-- Modelled from the spec: `Build()` of the filter builder. -/
def Filter.Build (f : Filter) : Filter := f

/-- Modelled from the spec: a filter "matches iff all required kinds are
present and none of the forbidden kinds are present". -/
def Filter.Matches (f : Filter) (has : Kind → Bool) : Bool :=
  f.required.all has && f.forbidden.all (fun k => !has k)

/-- The filter `thingsToCheck` of `NewGameConfigSystem`. -/
def NewGameConfigSystem.thingsToCheck : Filter :=
  NewFilter
    |>.Require Kind.FilePath
    |>.Require Kind.FileType
    |>.Require Kind.FileHandle
    |>.Forbid Kind.GameConfig
    |>.Forbid Kind.StringTable
    |>.Forbid Kind.DataDictionary
    |>.Forbid Kind.Palette
    |>.Forbid Kind.PaletteTransform
    |>.Forbid Kind.Cof
    |>.Forbid Kind.Dc6
    |>.Forbid Kind.Dcc
    |>.Forbid Kind.Ds1
    |>.Forbid Kind.Dt1
    |>.Forbid Kind.Wav
    |>.Forbid Kind.AnimData
    |>.Build

/-- The filter `gameConfigs` of `NewGameConfigSystem`. -/
def NewGameConfigSystem.gameConfigs : Filter :=
  NewFilter |>.Require Kind.GameConfig |>.Build

/-! ## `d2systems/game_config.go` -/

/-- Modelled from the spec: the well-known configuration file name
`configFileName` (its declaration is not part of the sources at hand; the
spec's scenario names the path "config.json"). -/
def configFileName : String := "config.json"

/-- Modelled from the spec: the file types of `d2enum`, among them the
"structured-text" type `FileTypeJSON`. -/
inductive FileType
  | FileTypeUnknown | FileTypeJSON | FileTypeStringTable | FileTypeDataDictionary
  | FileTypePalette | FileTypeWAV
deriving DecidableEq, Repr

/-- The component `FilePathComponent`. -/
structure FilePathComponent where
  Path : String
deriving DecidableEq

/-- The component `FileTypeComponent`; `Typ` is its field `Type`. -/
structure FileTypeComponent where
  Typ : FileType
deriving DecidableEq

/-- The component `FileHandleComponent`; `Data` is the state of its stream. -/
structure FileHandleComponent (Handle : Type) where
  Data : Handle

/-- The component `DirtyComponent`. -/
structure DirtyComponent where
  IsDirty : Bool
deriving DecidableEq

/-- What one call `json.NewDecoder(fh.Data).Decode(gameConfig)` leaves behind:
whether it returned an error, the record it wrote into, and the stream after
reading. -/
structure DecodeResult (Handle Config : Type) where
  err : Bool
  config : Config
  data : Handle

/-- Modelled from the spec: the decoder collaborator, "decode(handle) ->
Result<T, Error>", together with the zero value `&GameConfigComponent{}` that
a fresh component holds.  The decoder is given the stream and the record it
writes into. -/
structure Decoder (Handle Config : Type) where
  zero : Config
  decode : Handle → Config → DecodeResult Handle Config

/-- Calls observed while the system runs, oldest first. -/
inductive Event
  | loadConfig (eid : EID)
  | decode (eid : EID)
deriving DecidableEq, Repr

/-- The component maps of `GameConfigSystem.maps`, the presence of the other
asset kinds in the world (`assets`, read by the filters only), and the log of
calls made so far. -/
structure GameConfigSystem (Handle Config : Type) where
  filePaths : Store FilePathComponent
  fileTypes : Store FileTypeComponent
  fileHandles : Store (FileHandleComponent Handle)
  gameConfigs : Store Config
  dirty : Store DirtyComponent
  assets : Kind → EID → Bool
  trace : List Event

namespace GameConfigSystem

variable {Handle Config : Type}

/-- Whether entity `eid` carries a component of kind `k`. -/
def has (m : GameConfigSystem Handle Config) (eid : EID) : Kind → Bool
  | Kind.FilePath => (m.filePaths eid).isSome
  | Kind.FileType => (m.fileTypes eid).isSome
  | Kind.FileHandle => (m.fileHandles eid).isSome
  | Kind.GameConfig => (m.gameConfigs eid).isSome
  | Kind.Dirty => (m.dirty eid).isSome
  | k => m.assets k eid

/-- One iteration of the loop of `clearDirty`. -/
def clearDirtyStep (m : GameConfigSystem Handle Config) (eid : EID) :
    GameConfigSystem Handle Config :=
  match m.dirty.get eid with
  | none => { m with dirty := m.dirty.add eid ⟨false⟩ }
  | some dc => { m with dirty := m.dirty.set eid { dc with IsDirty := false } }

/-- `GameConfigSystem.clearDirty`. -/
def clearDirty (m : GameConfigSystem Handle Config) (entities : List EID) :
    GameConfigSystem Handle Config :=
  entities.foldl clearDirtyStep m

/-- `GameConfigSystem.loadConfig`.  The call itself and the call of the
decoder are appended to the log. -/
def loadConfig (dec : Decoder Handle Config) (m : GameConfigSystem Handle Config)
    (eid : EID) : GameConfigSystem Handle Config :=
  let m := { m with trace := m.trace ++ [Event.loadConfig eid] }
  match m.fileHandles.get eid with
  | none => m
  | some fh =>
    let added := m.gameConfigs.add eid dec.zero
    let gameConfig := (added.get eid).getD dec.zero
    let r := dec.decode fh.Data gameConfig
    let m := { m with
      fileHandles := m.fileHandles.set eid { fh with Data := r.data }
      gameConfigs := added.set eid r.config
      trace := m.trace ++ [Event.decode eid] }
    if r.err then
      { m with gameConfigs := m.gameConfigs.remove eid }
    else
      m

/-- One iteration of the loop of `checkForNewConfig`. -/
def checkForNewConfigStep (dec : Decoder Handle Config)
    (m : GameConfigSystem Handle Config) (eid : EID) : GameConfigSystem Handle Config :=
  match m.filePaths.get eid with
  | none => m
  | some fp =>
    match m.fileTypes.get eid with
    | none => m
    | some ft =>
      if fp.Path ≠ configFileName ∨ ft.Typ ≠ FileType.FileTypeJSON then
        m
      else
        loadConfig dec m eid

/-- `GameConfigSystem.checkForNewConfig`. -/
def checkForNewConfig (dec : Decoder Handle Config) (m : GameConfigSystem Handle Config)
    (entities : List EID) : GameConfigSystem Handle Config :=
  entities.foldl (checkForNewConfigStep dec) m

/-- `GameConfigSystem.Process`, given the entity lists that the two
subscriptions `gameConfigs` and `filesToCheck` return. -/
def Process (dec : Decoder Handle Config) (m : GameConfigSystem Handle Config)
    (gameConfigsEntities filesToCheckEntities : List EID) : GameConfigSystem Handle Config :=
  checkForNewConfig dec (clearDirty m gameConfigsEntities) filesToCheckEntities

/-- Modelled from the spec: the entity list of a subscription, "exactly the
set of entities whose current component set satisfies its Filter", taken in
the order of the world's entities. -/
def subscription (f : Filter) (entities : List EID) (m : GameConfigSystem Handle Config) :
    List EID :=
  entities.filter (fun e => f.Matches (m.has e))

/-- One frame: `Process` with both entity lists read from the subscriptions,
each at the moment `Process` asks for it. -/
def frame (dec : Decoder Handle Config) (entities : List EID)
    (m : GameConfigSystem Handle Config) : GameConfigSystem Handle Config :=
  let cleared := clearDirty m (subscription NewGameConfigSystem.gameConfigs entities m)
  checkForNewConfig dec cleared (subscription NewGameConfigSystem.thingsToCheck entities cleared)

/-- A run of `n` frames. -/
def frames (dec : Decoder Handle Config) (entities : List EID) :
    Nat → GameConfigSystem Handle Config → GameConfigSystem Handle Config
  | 0, m => m
  | n + 1, m => frames dec entities n (frame dec entities m)

/-- The file handle resolver (another system) attaches a handle to an entity. -/
def attachHandle (m : GameConfigSystem Handle Config) (eid : EID) (h : Handle) :
    GameConfigSystem Handle Config :=
  { m with fileHandles := m.fileHandles.set eid ⟨h⟩ }

/-- How often the decoder has been called for entity `eid`. -/
def decodeCount (m : GameConfigSystem Handle Config) (eid : EID) : Nat :=
  m.trace.count (Event.decode eid)

/-- The entities on which `loadConfig` has been called, oldest first. -/
def loadAttempts (m : GameConfigSystem Handle Config) : List EID :=
  m.trace.filterMap (fun ev => match ev with
    | Event.loadConfig e => some e
    | Event.decode _ => none)

end GameConfigSystem

/-- The entities the loop of `checkForNewConfig` hands to `loadConfig`,
in the words of the contract: those with a FilePath equal to `configFileName`
and a FileType equal to `FileTypeJSON`. -/
def GameConfigSystem.isConfigFile {Handle Config : Type} (m : GameConfigSystem Handle Config)
    (eid : EID) : Bool :=
  match m.filePaths eid, m.fileTypes eid with
  | some fp, some ft => fp.Path == configFileName && ft.Typ == FileType.FileTypeJSON
  | _, _ => false

/-- Entity `eid` carries the same components in `a` as in `b`. -/
def GameConfigSystem.sameComponents {Handle Config : Type}
    (a b : GameConfigSystem Handle Config) (eid : EID) : Prop :=
  a.filePaths eid = b.filePaths eid ∧ a.fileTypes eid = b.fileTypes eid
    ∧ a.fileHandles eid = b.fileHandles eid ∧ a.gameConfigs eid = b.gameConfigs eid
    ∧ a.dirty eid = b.dirty eid ∧ ∀ k, a.assets k eid = b.assets k eid

/-- Entity `eid` carries the same components in `a` as in `b`, the Dirty
component apart. -/
def GameConfigSystem.sameButDirty {Handle Config : Type}
    (a b : GameConfigSystem Handle Config) (eid : EID) : Prop :=
  a.filePaths eid = b.filePaths eid ∧ a.fileTypes eid = b.fileTypes eid
    ∧ a.fileHandles eid = b.fileHandles eid ∧ a.gameConfigs eid = b.gameConfigs eid
    ∧ ∀ k, a.assets k eid = b.assets k eid

/-- A decoder for the examples.  A stream is a list of numbers and a record
is a number; decoding reads the first number `n` of the stream and writes it
into the record, and reports an error at the end of the stream and for an odd
`n`. -/
def exampleDecoder : Decoder (List Nat) Nat :=
  { zero := 0
    decode := fun data config =>
      match data with
      | [] => ⟨true, config, []⟩
      | n :: rest => ⟨n % 2 != 0, n, rest⟩ }

/-- A world for the examples: entities 1 and 2 are config files with an open
handle (that of 2 does not decode), entity 3 is another file, and entity 4
carries a game config that is dirty. -/
def exampleSystem : GameConfigSystem (List Nat) Nat :=
  { filePaths := fun e =>
      if e = 1 ∨ e = 2 then some ⟨configFileName⟩
      else if e = 3 then some ⟨"other.txt"⟩ else none
    fileTypes := fun e =>
      if e = 1 ∨ e = 2 then some ⟨FileType.FileTypeJSON⟩
      else if e = 3 then some ⟨FileType.FileTypeUnknown⟩ else none
    fileHandles := fun e =>
      if e = 1 then some ⟨[4]⟩ else if e = 2 then some ⟨[3]⟩
      else if e = 3 then some ⟨[8]⟩ else none
    gameConfigs := fun e => if e = 4 then some 6 else none
    dirty := fun e => if e = 4 then some ⟨true⟩ else none
    assets := fun _ _ => false
    trace := [] }

/-- The example world before the handle of entity 1 has been opened. -/
def exampleWaiting : GameConfigSystem (List Nat) Nat :=
  { exampleSystem with
    fileHandles := fun e => if e = 2 then some ⟨[3]⟩ else if e = 3 then some ⟨[8]⟩ else none }

/-! ## `d2object/object.go` -/

/-- Modelled from the spec: the animation modes `d2enum.ObjectAnimationMode`
by which the arrays of an object record are indexed. -/
inductive ObjectAnimationMode
  | ObjectAnimationModeNeutral
  | ObjectAnimationModeOperating
  | ObjectAnimationModeOpened
  | ObjectAnimationModeSpecial1
  | ObjectAnimationModeSpecial2
  | ObjectAnimationModeSpecial3
  | ObjectAnimationModeSpecial4
  | ObjectAnimationModeSpecial5
deriving DecidableEq, Repr

/-- Modelled from the spec: the static type record `d2datadict.ObjectRecord`,
"indexed by animation mode: draw-order layer, frame-delta, frame count, loop
flag, start frame, and a selectable flag". -/
structure ObjectRecord where
  OrderFlag : ObjectAnimationMode → Int
  FrameDelta : ObjectAnimationMode → Int
  FrameCount : ObjectAnimationMode → Int
  CycleAnimation : ObjectAnimationMode → Bool
  StartFrame : ObjectAnimationMode → Int
  Selectable : ObjectAnimationMode → Bool

/-- The calls a composite animation receives from an object. -/
inductive CompositeCall
  | SetMode (animationMode : ObjectAnimationMode) (weaponClass : String)
  | SetDirection (direction : Int)
  | SetAnimSpeed (speed : Int)
  | SetSubLoop (startFrame endFrame : Int)
  | SetPlayLoop (loop : Bool)
  | SetCurrentFrame (frame : Int)
deriving DecidableEq, Repr

/-- Modelled from the spec: the composite animation collaborator
`d2interface.CompositeAnimation`, known through its contract only: the modes
for which `SetMode` returns no error, and the calls received so far, oldest
first. -/
structure Composite where
  modeLoads : ObjectAnimationMode → Bool
  calls : List CompositeCall

/-- The composite receives one more call. -/
def Composite.call (c : Composite) (k : CompositeCall) : Composite :=
  { c with calls := c.calls ++ [k] }

/-- An entry of the state stack of a surface. -/
inductive SurfaceState
  | translation (x y : Int)
  | brightness (b : ℚ)
deriving DecidableEq

/-- The calls a surface receives while an object is rendered. -/
inductive SurfaceCall
  | PushTranslation (x y : Int)
  | PushBrightness (b : ℚ)
  | Pop
  | Render
deriving DecidableEq

/-- Modelled from the spec: the surface collaborator `d2interface.Surface`,
which "accepts translation-push, brightness-push, and pop operations with a
stack discipline": its stack, top first, and the calls received so far,
oldest first. -/
structure Surface where
  stack : List SurfaceState
  calls : List SurfaceCall

namespace Surface

/-- Modelled from the spec: `Surface.PushTranslation`. -/
def PushTranslation (t : Surface) (x y : Int) : Surface :=
  { stack := SurfaceState.translation x y :: t.stack
    calls := t.calls ++ [SurfaceCall.PushTranslation x y] }

/-- Modelled from the spec: `Surface.PushBrightness`. -/
def PushBrightness (t : Surface) (b : ℚ) : Surface :=
  { stack := SurfaceState.brightness b :: t.stack
    calls := t.calls ++ [SurfaceCall.PushBrightness b] }

/-- Modelled from the spec: `Surface.Pop`, which drops the top of the stack. -/
def Pop (t : Surface) : Surface :=
  { stack := t.stack.tail
    calls := t.calls ++ [SurfaceCall.Pop] }

/-- Modelled from the spec: `composite.Render(target)`, the drawing of the
composite animation, which hands the surface back with the stack it found. -/
def compositeRender (t : Surface) : Surface :=
  { t with calls := t.calls ++ [SurfaceCall.Render] }

/-- The calls received since the surface was in state `before`. -/
def callsSince (t before : Surface) : List SurfaceCall :=
  t.calls.drop before.calls.length

end Surface

/-- The conversion `int(f)` of a float, which drops the fractional part. -/
def truncate (q : ℚ) : Int := q.num.tdiv (q.den : Int)

/-- The struct `Object`. -/
structure Object where
  composite : Composite
  highlight : Bool
  LocationX : ℚ
  LocationY : ℚ
  TileX : Int
  TileY : Int
  subcellX : ℚ
  subcellY : ℚ
  objectRecord : ObjectRecord
  drawLayer : Int
  name : String

/-- The call `rand.Intn(n)`: it panics (`none`) unless `0 < n`, and otherwise
returns some number of `[0, n)`, here the one that the generator state `seed`
yields. -/
def randIntn (seed : Nat) (n : Int) : Option Int :=
  if n ≤ 0 then none else some ((seed : Int) % n)

/-- How a call of `setMode` ends: with a panic, or by returning (with the
error of `composite.SetMode`, if any) and leaving the object in some state. -/
inductive SetModeResult
  | panicked
  | returned (err : Bool) (ob : Object)

namespace Object

/-- `Object.setMode`; `seed` is the state of the random number generator. -/
def setMode (ob : Object) (animationMode : ObjectAnimationMode) (direction : Int)
    (randomFrame : Bool) (seed : Nat) : SetModeResult :=
  let composite := ob.composite.call (CompositeCall.SetMode animationMode "HTH")
  if !composite.modeLoads animationMode then
    SetModeResult.returned true { ob with composite := composite }
  else
    let composite := composite.call (CompositeCall.SetDirection direction)
    let drawLayer := ob.objectRecord.OrderFlag ObjectAnimationMode.ObjectAnimationModeNeutral
    let speed := ob.objectRecord.FrameDelta animationMode
    let composite :=
      if speed ≠ 0 then composite.call (CompositeCall.SetAnimSpeed speed) else composite
    let frameCount := ob.objectRecord.FrameCount animationMode
    let composite :=
      if frameCount ≠ 0 then composite.call (CompositeCall.SetSubLoop 0 frameCount)
      else composite
    let composite :=
      composite.call (CompositeCall.SetPlayLoop (ob.objectRecord.CycleAnimation animationMode))
    let composite :=
      composite.call (CompositeCall.SetCurrentFrame (ob.objectRecord.StartFrame animationMode))
    if randomFrame then
      match randIntn seed frameCount with
      | none => SetModeResult.panicked
      | some n =>
        SetModeResult.returned false
          { ob with
            composite := composite.call (CompositeCall.SetCurrentFrame n)
            drawLayer := drawLayer }
    else
      SetModeResult.returned false { ob with composite := composite, drawLayer := drawLayer }

/-- `Object.Highlight`. -/
def Highlight (ob : Object) : Object :=
  { ob with highlight := true }

/-- `Object.Render`: the object and the surface after the call.  The deferred
pops run when the function returns, the one deferred last first. -/
def Render (ob : Object) (target : Surface) : Object × Surface :=
  let target := target.PushTranslation
    (truncate ((ob.subcellX - ob.subcellY) * 16))
    (truncate ((ob.subcellX + ob.subcellY) * 8))
  let highlighted := ob.highlight
  let target := if highlighted then target.PushBrightness 2 else target
  let target := target.compositeRender
  let ob := { ob with highlight := false }
  let target := target.Pop
  let target := if highlighted then target.Pop else target
  (ob, target)

/-- `Object.GetLayer`. -/
def GetLayer (ob : Object) : Int := ob.drawLayer

end Object

/-- Whether a call of a surface pushes onto its stack. -/
def SurfaceCall.isPush : SurfaceCall → Bool
  | SurfaceCall.PushTranslation _ _ => true
  | SurfaceCall.PushBrightness _ => true
  | _ => false

/-- Whether a call of a surface pushes a brightness. -/
def SurfaceCall.isPushBrightness : SurfaceCall → Bool
  | SurfaceCall.PushBrightness _ => true
  | _ => false

/-- The calls a composite receives from `setMode` once `SetMode` has
succeeded, in the words of the contract: direction as requested, and speed,
frame count, loop flag and start frame read from the record at the requested
mode; `frame` is the random frame, if one was drawn. -/
def Object.setModeCalls (ob : Object) (animationMode : ObjectAnimationMode) (direction : Int)
    (frame : Option Int) : List CompositeCall :=
  [CompositeCall.SetMode animationMode "HTH", CompositeCall.SetDirection direction]
    ++ (if ob.objectRecord.FrameDelta animationMode ≠ 0 then
          [CompositeCall.SetAnimSpeed (ob.objectRecord.FrameDelta animationMode)] else [])
    ++ (if ob.objectRecord.FrameCount animationMode ≠ 0 then
          [CompositeCall.SetSubLoop 0 (ob.objectRecord.FrameCount animationMode)] else [])
    ++ [CompositeCall.SetPlayLoop (ob.objectRecord.CycleAnimation animationMode),
        CompositeCall.SetCurrentFrame (ob.objectRecord.StartFrame animationMode)]
    ++ (match frame with
        | some n => [CompositeCall.SetCurrentFrame n]
        | none => [])

/-- An object record for the examples, whose draw layer differs between the
neutral mode (layer 1) and the other modes (layer 2). -/
def exampleRecord : ObjectRecord :=
  { OrderFlag := fun mode =>
      if mode = ObjectAnimationMode.ObjectAnimationModeNeutral then 1 else 2
    FrameDelta := fun _ => 256
    FrameCount := fun mode =>
      if mode = ObjectAnimationMode.ObjectAnimationModeOpened then 0 else 12
    CycleAnimation := fun _ => true
    StartFrame := fun _ => 3
    Selectable := fun _ => true }

/-- An object for the examples, at map position (7, 3), whose composite loads
every mode but `ObjectAnimationModeSpecial5`. -/
def exampleObject : Object :=
  { composite :=
      { modeLoads := fun mode => mode != ObjectAnimationMode.ObjectAnimationModeSpecial5
        calls := [] }
    highlight := false
    LocationX := 7
    LocationY := 3
    TileX := 1
    TileY := 0
    subcellX := 3
    subcellY := 4
    objectRecord := exampleRecord
    drawLayer := 0
    name := "chest" }

/-- A surface for the examples, with one entry on its stack. -/
def exampleSurface : Surface :=
  { stack := [SurfaceState.translation 100 50]
    calls := [] }

/-! ## Properties: movement -/

/-- Claim C1: for an entity with Position `p` and Velocity `v` and any time
delta `d`, after `ProcessEntity` the entity's position is `p + v * (d / 1s)`
componentwise, the arithmetic being exact; the velocity is left as it was. -/
theorem processEntity_integrates (m : MovementSystem) (id : EID) (p v : Vector)
    (hp : m.positions.get id = some p) (hv : m.velocities.get id = some v) :
    (m.ProcessEntity id).positions.get id
        = some ⟨p.x + v.x * ((m.TimeDelta : ℚ) / (timeSecond : ℚ)),
                p.y + v.y * ((m.TimeDelta : ℚ) / (timeSecond : ℚ))⟩
      ∧ (m.ProcessEntity id).velocities.get id = some v := by
  have hp' : m.positions id = some p := hp
  have hv' : m.velocities id = some v := hv
  simp [MovementSystem.ProcessEntity, hp', hv', Store.get, Store.set, Vector.Add,
    Vector.Scale, Vector.Clone]

theorem processEntity_integrates_witness :
    movementExample.positions.get 7 = some ⟨10, 20⟩
      ∧ movementExample.velocities.get 7 = some ⟨2, -4⟩
      ∧ movementExample.TimeDelta = 500000000
      ∧ (movementExample.ProcessEntity 7).positions.get 7 = some ⟨10 + 1, 20 + (-2)⟩ :=
  ⟨rfl, rfl, rfl,
    (processEntity_integrates movementExample 7 ⟨10, 20⟩ ⟨2, -4⟩ rfl rfl).1.trans
      (by simp only [movementExample, timeSecond]; norm_num)⟩

/-! ## Properties: the game config system -/

namespace GameConfigSystem

variable {Handle Config : Type}

section clearDirty

theorem clearDirtyStep_dirty_self (m : GameConfigSystem Handle Config) (e : EID) :
    (clearDirtyStep m e).dirty e = some ⟨false⟩ := by
  unfold clearDirtyStep
  cases h : m.dirty.get e with
  | none =>
    have h' : m.dirty e = none := h
    simp [Store.add, h']
  | some dc => simp [Store.set]

theorem clearDirtyStep_dirty_other (m : GameConfigSystem Handle Config) (e e' : EID)
    (hne : e' ≠ e) : (clearDirtyStep m e).dirty e' = m.dirty e' := by
  unfold clearDirtyStep
  cases h : m.dirty.get e with
  | none => simp [Store.add, hne]
  | some dc => simp [Store.set, hne]

theorem clearDirtyStep_keeps_false (m : GameConfigSystem Handle Config) (e e' : EID)
    (h : m.dirty e' = some ⟨false⟩) : (clearDirtyStep m e).dirty e' = some ⟨false⟩ := by
  by_cases hee : e' = e
  · subst hee; exact clearDirtyStep_dirty_self m e'
  · rw [clearDirtyStep_dirty_other m e e' hee]; exact h

theorem clearDirty_keeps_false (entities : List EID) (m : GameConfigSystem Handle Config)
    (e' : EID) (h : m.dirty e' = some ⟨false⟩) :
    (clearDirty m entities).dirty e' = some ⟨false⟩ := by
  induction entities generalizing m with
  | nil => exact h
  | cons e rest ih =>
    exact ih (clearDirtyStep m e) (clearDirtyStep_keeps_false m e e' h)

theorem clearDirty_dirty_not_mem (entities : List EID) (m : GameConfigSystem Handle Config)
    (e' : EID) (h : e' ∉ entities) : (clearDirty m entities).dirty e' = m.dirty e' := by
  induction entities generalizing m with
  | nil => rfl
  | cons e rest ih =>
    have h1 : e' ≠ e := fun hc => h (hc ▸ List.mem_cons_self _ _)
    have h2 : e' ∉ rest := fun hc => h (List.mem_cons_of_mem _ hc)
    have := ih (clearDirtyStep m e) h2
    simp only [clearDirty, List.foldl_cons] at this ⊢
    rw [this, clearDirtyStep_dirty_other m e e' h1]

theorem clearDirtyStep_rest (m : GameConfigSystem Handle Config) (e : EID) :
    (clearDirtyStep m e).filePaths = m.filePaths
      ∧ (clearDirtyStep m e).fileTypes = m.fileTypes
      ∧ (clearDirtyStep m e).fileHandles = m.fileHandles
      ∧ (clearDirtyStep m e).gameConfigs = m.gameConfigs
      ∧ (clearDirtyStep m e).assets = m.assets
      ∧ (clearDirtyStep m e).trace = m.trace := by
  unfold clearDirtyStep
  cases h : m.dirty.get e <;> simp

theorem clearDirty_rest (entities : List EID) (m : GameConfigSystem Handle Config) :
    (clearDirty m entities).filePaths = m.filePaths
      ∧ (clearDirty m entities).fileTypes = m.fileTypes
      ∧ (clearDirty m entities).fileHandles = m.fileHandles
      ∧ (clearDirty m entities).gameConfigs = m.gameConfigs
      ∧ (clearDirty m entities).assets = m.assets
      ∧ (clearDirty m entities).trace = m.trace := by
  induction entities generalizing m with
  | nil => exact ⟨rfl, rfl, rfl, rfl, rfl, rfl⟩
  | cons e rest ih =>
    obtain ⟨a1, a2, a3, a4, a5, a6⟩ := ih (clearDirtyStep m e)
    obtain ⟨b1, b2, b3, b4, b5, b6⟩ := clearDirtyStep_rest m e
    simp only [clearDirty, List.foldl_cons] at a1 a2 a3 a4 a5 a6 ⊢
    exact ⟨a1.trans b1, a2.trans b2, a3.trans b3, a4.trans b4, a5.trans b5, a6.trans b6⟩

theorem clearDirty_dirty_mem (m : GameConfigSystem Handle Config) (entities : List EID)
    (eid : EID) (h : eid ∈ entities) :
    (clearDirty m entities).dirty eid = some ⟨false⟩ := by
  induction entities generalizing m with
  | nil => cases h
  | cons e rest ih =>
    by_cases hr : eid ∈ rest
    · exact ih (clearDirtyStep m e) hr
    · have he : eid = e := by
        rcases List.mem_cons.mp h with h1 | h1
        · exact h1
        · exact absurd h1 hr
      subst he
      exact clearDirty_keeps_false rest (clearDirtyStep m eid) eid
        (clearDirtyStep_dirty_self m eid)

end clearDirty

/-- Claim C3: after `clearDirty(list)` every entity of the list has a Dirty
component and it reads false, whatever the Dirty store held before. -/
theorem clearDirty_reads_false (m : GameConfigSystem Handle Config) (entities : List EID)
    (eid : EID) (h : eid ∈ entities) :
    (clearDirty m entities).dirty.get eid = some ⟨false⟩ :=
  clearDirty_dirty_mem m entities eid h

theorem clearDirty_reads_false_witness :
    2 ∈ [4, 2] ∧ (clearDirty exampleSystem [4, 2]).dirty.get 2 = some ⟨false⟩ :=
  ⟨by decide, clearDirty_reads_false exampleSystem [4, 2] 2 (by decide)⟩

section loadConfig

theorem loadConfig_rest (dec : Decoder Handle Config) (m : GameConfigSystem Handle Config)
    (e : EID) :
    (loadConfig dec m e).filePaths = m.filePaths
      ∧ (loadConfig dec m e).fileTypes = m.fileTypes
      ∧ (loadConfig dec m e).dirty = m.dirty
      ∧ (loadConfig dec m e).assets = m.assets := by
  unfold loadConfig
  cases h : m.fileHandles e with
  | none => simp [Store.get, h]
  | some fh =>
    simp only [Store.get, h]
    split <;> simp

theorem loadConfig_other (dec : Decoder Handle Config) (m : GameConfigSystem Handle Config)
    (e e' : EID) (hne : e' ≠ e) :
    (loadConfig dec m e).gameConfigs e' = m.gameConfigs e'
      ∧ (loadConfig dec m e).fileHandles e' = m.fileHandles e'
      ∧ (loadConfig dec m e).decodeCount e' = m.decodeCount e' := by
  have hev : Event.decode e' ≠ Event.decode e := fun hc => hne (Event.decode.inj hc)
  unfold loadConfig
  cases h : m.fileHandles e with
  | none => simp [Store.get, h, decodeCount, List.count_append]
  | some fh =>
    simp only [Store.get, h]
    split <;>
      simp [Store.set, Store.add, Store.remove, hne, decodeCount, List.count_append,
        List.count_cons, hev.symm]

theorem loadConfig_loadAttempts (dec : Decoder Handle Config)
    (m : GameConfigSystem Handle Config) (e : EID) :
    (loadConfig dec m e).loadAttempts = m.loadAttempts ++ [e] := by
  unfold loadConfig
  cases h : m.fileHandles e with
  | none => simp [Store.get, h, loadAttempts, List.filterMap_append]
  | some fh =>
    simp only [Store.get, h]
    split <;> simp [loadAttempts, List.filterMap_append]

end loadConfig

/-- Claim C4: when the entity has a FileHandle and no GameConfig component and
decoding the handle returns an error, `loadConfig` leaves the entity without
a GameConfig component; the GameConfig store is what it was before the call. -/
theorem loadConfig_decode_failure (dec : Decoder Handle Config)
    (m : GameConfigSystem Handle Config) (eid : EID) (fh : FileHandleComponent Handle)
    (hfh : m.fileHandles.get eid = some fh) (hgc : m.gameConfigs.get eid = none)
    (herr : (dec.decode fh.Data dec.zero).err = true) :
    (loadConfig dec m eid).gameConfigs.get eid = none
      ∧ (loadConfig dec m eid).gameConfigs = m.gameConfigs := by
  have hfh' : m.fileHandles eid = some fh := hfh
  have hgc' : m.gameConfigs eid = none := hgc
  have hstore : (loadConfig dec m eid).gameConfigs = m.gameConfigs := by
    funext e'
    unfold loadConfig
    simp only [Store.get, hfh', Store.add, hgc', Option.getD_none, if_true, Option.getD_some,
      herr]
    by_cases hee : e' = eid
    · subst hee; simp [Store.remove, hgc']
    · simp [Store.remove, Store.set, Store.add, hee]
  refine ⟨?_, hstore⟩
  rw [hstore]; exact hgc

theorem loadConfig_decode_failure_witness :
    exampleSystem.fileHandles.get 2 = some ⟨[3]⟩
      ∧ exampleSystem.gameConfigs.get 2 = none
      ∧ (exampleDecoder.decode [3] exampleDecoder.zero).err = true
      ∧ (loadConfig exampleDecoder exampleSystem 2).gameConfigs.get 2 = none
      ∧ (loadConfig exampleDecoder exampleSystem 2).gameConfigs = exampleSystem.gameConfigs :=
  ⟨rfl, rfl, rfl, loadConfig_decode_failure exampleDecoder exampleSystem 2 ⟨[3]⟩ rfl rfl rfl⟩

section filters

theorem thingsToCheck_matches_iff (has : Kind → Bool) :
    NewGameConfigSystem.thingsToCheck.Matches has = true ↔
      (has Kind.FilePath = true ∧ has Kind.FileType = true ∧ has Kind.FileHandle = true)
        ∧ has Kind.GameConfig = false ∧ has Kind.StringTable = false
        ∧ has Kind.DataDictionary = false ∧ has Kind.Palette = false
        ∧ has Kind.PaletteTransform = false ∧ has Kind.Cof = false ∧ has Kind.Dc6 = false
        ∧ has Kind.Dcc = false ∧ has Kind.Ds1 = false ∧ has Kind.Dt1 = false
        ∧ has Kind.Wav = false ∧ has Kind.AnimData = false := by
  simp [NewGameConfigSystem.thingsToCheck, NewFilter, Filter.Require, Filter.Forbid,
    Filter.Build, Filter.Matches, and_assoc]

theorem gameConfigs_matches_iff (has : Kind → Bool) :
    NewGameConfigSystem.gameConfigs.Matches has = true ↔ has Kind.GameConfig = true := by
  simp [NewGameConfigSystem.gameConfigs, NewFilter, Filter.Require, Filter.Build,
    Filter.Matches]

theorem loadConfig_success (dec : Decoder Handle Config) (m : GameConfigSystem Handle Config)
    (eid : EID) (fh : FileHandleComponent Handle) (hfh : m.fileHandles eid = some fh)
    (hok : (dec.decode fh.Data ((m.gameConfigs eid).getD dec.zero)).err = false) :
    (loadConfig dec m eid).gameConfigs eid
        = some (dec.decode fh.Data ((m.gameConfigs eid).getD dec.zero)).config
      ∧ (loadConfig dec m eid).decodeCount eid = m.decodeCount eid + 1 := by
  unfold loadConfig
  simp [Store.get, hfh, Store.add, hok, Store.set, decodeCount, List.count_append]

end filters

/-- Claim C5: an entity matched by `thingsToCheck` whose handle decodes
successfully no longer satisfies `thingsToCheck` after `loadConfig` and does
satisfy `gameConfigs`; no component set satisfies both filters. -/
theorem loadConfig_leaves_thingsToCheck (dec : Decoder Handle Config)
    (m : GameConfigSystem Handle Config) (eid : EID) (fh : FileHandleComponent Handle)
    (hmatch : NewGameConfigSystem.thingsToCheck.Matches (m.has eid) = true)
    (hfh : m.fileHandles.get eid = some fh)
    (hok : (dec.decode fh.Data dec.zero).err = false) :
    NewGameConfigSystem.thingsToCheck.Matches ((loadConfig dec m eid).has eid) = false
      ∧ NewGameConfigSystem.gameConfigs.Matches ((loadConfig dec m eid).has eid) = true
      ∧ ∀ has : Kind → Bool,
          ¬ (NewGameConfigSystem.thingsToCheck.Matches has = true
              ∧ NewGameConfigSystem.gameConfigs.Matches has = true) := by
  have hnone : m.gameConfigs eid = none := by
    have h := ((thingsToCheck_matches_iff (m.has eid)).mp hmatch).2.1
    simpa [has] using h
  have hok' : (dec.decode fh.Data ((m.gameConfigs eid).getD dec.zero)).err = false := by
    rw [hnone]; exact hok
  have hsome := (loadConfig_success dec m eid fh hfh hok').1
  have hhas : (loadConfig dec m eid).has eid Kind.GameConfig = true := by
    simp [has, hsome]
  refine ⟨?_, ?_, ?_⟩
  · cases hc : NewGameConfigSystem.thingsToCheck.Matches ((loadConfig dec m eid).has eid) with
    | false => rfl
    | true =>
      have h := ((thingsToCheck_matches_iff _).mp hc).2.1
      rw [hhas] at h
      cases h
  · exact (gameConfigs_matches_iff _).mpr hhas
  · intro has' ⟨h1, h2⟩
    have a := ((thingsToCheck_matches_iff has').mp h1).2.1
    have b := (gameConfigs_matches_iff has').mp h2
    rw [a] at b
    cases b

theorem loadConfig_leaves_thingsToCheck_witness :
    NewGameConfigSystem.thingsToCheck.Matches (exampleSystem.has 1) = true
      ∧ exampleSystem.fileHandles.get 1 = some ⟨[4]⟩
      ∧ (exampleDecoder.decode [4] exampleDecoder.zero).err = false
      ∧ NewGameConfigSystem.thingsToCheck.Matches
          ((loadConfig exampleDecoder exampleSystem 1).has 1) = false
      ∧ NewGameConfigSystem.gameConfigs.Matches
          ((loadConfig exampleDecoder exampleSystem 1).has 1) = true
      ∧ ∀ has : Kind → Bool,
          ¬ (NewGameConfigSystem.thingsToCheck.Matches has = true
              ∧ NewGameConfigSystem.gameConfigs.Matches has = true) :=
  ⟨by decide, rfl, rfl,
    loadConfig_leaves_thingsToCheck exampleDecoder exampleSystem 1 ⟨[4]⟩ (by decide) rfl rfl⟩

section checkForNewConfig

theorem checkForNewConfigStep_skip (dec : Decoder Handle Config)
    (m : GameConfigSystem Handle Config) (e : EID) (h : m.isConfigFile e = false) :
    checkForNewConfigStep dec m e = m := by
  unfold checkForNewConfigStep
  unfold isConfigFile at h
  cases hp : m.filePaths e with
  | none => simp [Store.get, hp]
  | some fp =>
    cases ht : m.fileTypes e with
    | none => simp [Store.get, hp, ht]
    | some ft =>
      simp only [hp, ht, Bool.and_eq_false_imp, beq_iff_eq, beq_eq_false_iff_ne] at h
      simp only [Store.get, hp, ht]
      by_cases hpath : fp.Path = configFileName
      · simp [hpath, h hpath]
      · simp [hpath]

theorem checkForNewConfigStep_load (dec : Decoder Handle Config)
    (m : GameConfigSystem Handle Config) (e : EID) (h : m.isConfigFile e = true) :
    checkForNewConfigStep dec m e = loadConfig dec m e := by
  unfold checkForNewConfigStep
  unfold isConfigFile at h
  cases hp : m.filePaths e with
  | none => simp [hp] at h
  | some fp =>
    cases ht : m.fileTypes e with
    | none => simp [hp, ht] at h
    | some ft =>
      simp only [hp, ht, Bool.and_eq_true, beq_iff_eq] at h
      simp [Store.get, hp, ht, h.1, h.2]

theorem checkForNewConfigStep_rest (dec : Decoder Handle Config)
    (m : GameConfigSystem Handle Config) (e : EID) :
    (checkForNewConfigStep dec m e).filePaths = m.filePaths
      ∧ (checkForNewConfigStep dec m e).fileTypes = m.fileTypes
      ∧ (checkForNewConfigStep dec m e).dirty = m.dirty
      ∧ (checkForNewConfigStep dec m e).assets = m.assets := by
  cases h : m.isConfigFile e with
  | false => rw [checkForNewConfigStep_skip dec m e h]; exact ⟨rfl, rfl, rfl, rfl⟩
  | true => rw [checkForNewConfigStep_load dec m e h]; exact loadConfig_rest dec m e

theorem checkForNewConfigStep_isConfigFile (dec : Decoder Handle Config)
    (m : GameConfigSystem Handle Config) (e : EID) :
    (checkForNewConfigStep dec m e).isConfigFile = m.isConfigFile := by
  obtain ⟨h1, h2, _, _⟩ := checkForNewConfigStep_rest dec m e
  funext e'
  simp only [isConfigFile, h1, h2]

theorem checkForNewConfigStep_other (dec : Decoder Handle Config)
    (m : GameConfigSystem Handle Config) (e e' : EID) (hne : e' ≠ e) :
    (checkForNewConfigStep dec m e).gameConfigs e' = m.gameConfigs e'
      ∧ (checkForNewConfigStep dec m e).fileHandles e' = m.fileHandles e'
      ∧ (checkForNewConfigStep dec m e).decodeCount e' = m.decodeCount e' := by
  cases h : m.isConfigFile e with
  | false => rw [checkForNewConfigStep_skip dec m e h]; exact ⟨rfl, rfl, rfl⟩
  | true => rw [checkForNewConfigStep_load dec m e h]; exact loadConfig_other dec m e e' hne

theorem checkForNewConfigStep_loadAttempts (dec : Decoder Handle Config)
    (m : GameConfigSystem Handle Config) (e : EID) :
    (checkForNewConfigStep dec m e).loadAttempts
      = m.loadAttempts ++ (if m.isConfigFile e = true then [e] else []) := by
  cases h : m.isConfigFile e with
  | false => rw [checkForNewConfigStep_skip dec m e h]; simp
  | true => rw [checkForNewConfigStep_load dec m e h]; simp [loadConfig_loadAttempts]

theorem checkForNewConfigStep_same (dec : Decoder Handle Config)
    (m : GameConfigSystem Handle Config) (e e' : EID)
    (h : e' ≠ e ∨ m.isConfigFile e' = false) :
    (checkForNewConfigStep dec m e).sameComponents m e'
      ∧ (checkForNewConfigStep dec m e).decodeCount e' = m.decodeCount e' := by
  by_cases hee : e' = e
  · subst hee
    have hskip : m.isConfigFile e' = false := by
      rcases h with h | h
      · exact absurd rfl h
      · exact h
    rw [checkForNewConfigStep_skip dec m e' hskip]
    exact ⟨⟨rfl, rfl, rfl, rfl, rfl, fun _ => rfl⟩, rfl⟩
  · obtain ⟨a1, a2, a3, a4⟩ := checkForNewConfigStep_rest dec m e
    obtain ⟨b1, b2, b3⟩ := checkForNewConfigStep_other dec m e e' hee
    exact ⟨⟨by rw [a1], by rw [a2], b2, b1, by rw [a3], fun k => by rw [a4]⟩, b3⟩

theorem checkForNewConfig_same (dec : Decoder Handle Config) (entities : List EID)
    (m : GameConfigSystem Handle Config) (e' : EID)
    (h : e' ∉ entities ∨ m.isConfigFile e' = false) :
    (checkForNewConfig dec m entities).sameComponents m e'
      ∧ (checkForNewConfig dec m entities).decodeCount e' = m.decodeCount e' := by
  induction entities generalizing m with
  | nil => exact ⟨⟨rfl, rfl, rfl, rfl, rfl, fun _ => rfl⟩, rfl⟩
  | cons e rest ih =>
    have hstep : e' ≠ e ∨ m.isConfigFile e' = false := by
      rcases h with h | h
      · exact Or.inl (fun hc => h (hc ▸ List.mem_cons_self _ _))
      · exact Or.inr h
    have hrest : e' ∉ rest ∨ (checkForNewConfigStep dec m e).isConfigFile e' = false := by
      rcases h with h | h
      · exact Or.inl (fun hc => h (List.mem_cons_of_mem _ hc))
      · exact Or.inr (by rw [checkForNewConfigStep_isConfigFile]; exact h)
    obtain ⟨⟨a1, a2, a3, a4, a5, a6⟩, a7⟩ := ih (checkForNewConfigStep dec m e) hrest
    obtain ⟨⟨b1, b2, b3, b4, b5, b6⟩, b7⟩ := checkForNewConfigStep_same dec m e e' hstep
    simp only [checkForNewConfig, List.foldl_cons] at a1 a2 a3 a4 a5 a6 a7 ⊢
    exact ⟨⟨a1.trans b1, a2.trans b2, a3.trans b3, a4.trans b4, a5.trans b5,
      fun k => (a6 k).trans (b6 k)⟩, a7.trans b7⟩

theorem checkForNewConfig_loadAttempts (dec : Decoder Handle Config) (entities : List EID)
    (m : GameConfigSystem Handle Config) :
    (checkForNewConfig dec m entities).loadAttempts
      = m.loadAttempts ++ entities.filter m.isConfigFile := by
  induction entities generalizing m with
  | nil => simp [checkForNewConfig]
  | cons e rest ih =>
    have h := ih (checkForNewConfigStep dec m e)
    simp only [checkForNewConfig, List.foldl_cons] at h ⊢
    rw [h, checkForNewConfigStep_isConfigFile, checkForNewConfigStep_loadAttempts]
    cases hc : m.isConfigFile e <;> simp [List.filter_cons, hc]

end checkForNewConfig

/-- Claim C7: whatever the decoder does, `checkForNewConfig` attempts
`loadConfig` on exactly the listed entities whose FilePath is
`configFileName` and whose FileType is `FileTypeJSON`, in the order of the
list, so that a failure on one entity never stops a later one; an entity with
another path or type (or without one) is left with the components it had. -/
theorem checkForNewConfig_attempts (dec : Decoder Handle Config)
    (m : GameConfigSystem Handle Config) (entities : List EID) :
    (checkForNewConfig dec m entities).loadAttempts
        = m.loadAttempts ++ entities.filter m.isConfigFile
      ∧ ∀ eid, m.isConfigFile eid = false →
          (checkForNewConfig dec m entities).sameComponents m eid :=
  ⟨checkForNewConfig_loadAttempts dec entities m,
    fun eid h => (checkForNewConfig_same dec entities m eid (Or.inr h)).1⟩

theorem checkForNewConfig_attempts_witness :
    (checkForNewConfig exampleDecoder exampleSystem [2, 3, 1]).loadAttempts = [2, 1]
      ∧ exampleSystem.isConfigFile 3 = false
      ∧ (checkForNewConfig exampleDecoder exampleSystem [2, 3, 1]).sameComponents
          exampleSystem 3 :=
  ⟨(checkForNewConfig_attempts exampleDecoder exampleSystem [2, 3, 1]).1.trans (by decide),
    by decide,
    (checkForNewConfig_attempts exampleDecoder exampleSystem [2, 3, 1]).2 3 (by decide)⟩

section Process

theorem checkForNewConfig_rest (dec : Decoder Handle Config) (entities : List EID)
    (m : GameConfigSystem Handle Config) :
    (checkForNewConfig dec m entities).filePaths = m.filePaths
      ∧ (checkForNewConfig dec m entities).fileTypes = m.fileTypes
      ∧ (checkForNewConfig dec m entities).dirty = m.dirty
      ∧ (checkForNewConfig dec m entities).assets = m.assets := by
  induction entities generalizing m with
  | nil => exact ⟨rfl, rfl, rfl, rfl⟩
  | cons e rest ih =>
    obtain ⟨a1, a2, a3, a4⟩ := ih (checkForNewConfigStep dec m e)
    obtain ⟨b1, b2, b3, b4⟩ := checkForNewConfigStep_rest dec m e
    simp only [checkForNewConfig, List.foldl_cons] at a1 a2 a3 a4 ⊢
    exact ⟨a1.trans b1, a2.trans b2, a3.trans b3, a4.trans b4⟩

theorem checkForNewConfig_decodes_once (dec : Decoder Handle Config) (entities : List EID)
    (m : GameConfigSystem Handle Config) (eid : EID) (fh : FileHandleComponent Handle)
    (hmem : eid ∈ entities) (hnodup : entities.Nodup) (hcfg : m.isConfigFile eid = true)
    (hfh : m.fileHandles eid = some fh)
    (hok : (dec.decode fh.Data ((m.gameConfigs eid).getD dec.zero)).err = false) :
    (checkForNewConfig dec m entities).gameConfigs eid
        = some (dec.decode fh.Data ((m.gameConfigs eid).getD dec.zero)).config
      ∧ (checkForNewConfig dec m entities).decodeCount eid = m.decodeCount eid + 1 := by
  induction entities generalizing m with
  | nil => cases hmem
  | cons e rest ih =>
    obtain ⟨hnot, hrest⟩ := List.nodup_cons.mp hnodup
    simp only [checkForNewConfig, List.foldl_cons]
    by_cases hee : eid = e
    · subst hee
      obtain ⟨s1, s2⟩ := loadConfig_success dec m eid fh hfh hok
      obtain ⟨⟨_, _, _, c4, _, _⟩, c7⟩ :=
        checkForNewConfig_same dec rest (checkForNewConfigStep dec m eid) eid (Or.inl hnot)
      simp only [checkForNewConfig] at c4 c7
      rw [c4, c7, checkForNewConfigStep_load dec m eid hcfg]
      exact ⟨s1, s2⟩
    · have hmem' : eid ∈ rest := by
        rcases List.mem_cons.mp hmem with h | h
        · exact absurd h hee
        · exact h
      obtain ⟨⟨_, _, b3, b4, _, _⟩, b7⟩ := checkForNewConfigStep_same dec m e eid (Or.inl hee)
      have hcfg' : (checkForNewConfigStep dec m e).isConfigFile eid = true := by
        rw [checkForNewConfigStep_isConfigFile]; exact hcfg
      have hfh' : (checkForNewConfigStep dec m e).fileHandles eid = some fh := by
        rw [b3]; exact hfh
      have hok' : (dec.decode fh.Data
          (((checkForNewConfigStep dec m e).gameConfigs eid).getD dec.zero)).err = false := by
        rw [b4]; exact hok
      have := ih (checkForNewConfigStep dec m e) hmem' hrest hcfg' hfh' hok'
      simp only [checkForNewConfig] at this
      rw [this.1, this.2, b4, b7]
      exact ⟨rfl, rfl⟩

end Process

/-- Claim C2 as the code has it: for an entity of the awaiting-config list
(which lists each entity once) whose path is the config file name, whose type
is JSON and whose handle decodes successfully, the entity has the decoded
GameConfig component at the end of the `Process` pass, and the pass does not
set Dirty true: the entity's Dirty component reads false when the entity is
in the game-configs list and is otherwise what it was before the pass, absent
when it was absent. -/
theorem process_attaches_config_keeps_dirty (dec : Decoder Handle Config)
    (m : GameConfigSystem Handle Config) (gameConfigsEntities filesToCheckEntities : List EID)
    (eid : EID) (fh : FileHandleComponent Handle)
    (hmem : eid ∈ filesToCheckEntities) (hnodup : filesToCheckEntities.Nodup)
    (hcfg : m.isConfigFile eid = true) (hfh : m.fileHandles.get eid = some fh)
    (hok : (dec.decode fh.Data ((m.gameConfigs.get eid).getD dec.zero)).err = false) :
    (Process dec m gameConfigsEntities filesToCheckEntities).gameConfigs.get eid
        = some (dec.decode fh.Data ((m.gameConfigs.get eid).getD dec.zero)).config
      ∧ (Process dec m gameConfigsEntities filesToCheckEntities).dirty.get eid
        = (if eid ∈ gameConfigsEntities then some ⟨false⟩ else m.dirty.get eid) := by
  obtain ⟨c1, c2, c3, c4, _, _⟩ := clearDirty_rest gameConfigsEntities m
  have hcfg' : (clearDirty m gameConfigsEntities).isConfigFile eid = true := by
    simp only [isConfigFile, c1, c2]; exact hcfg
  have hfh' : (clearDirty m gameConfigsEntities).fileHandles eid = some fh := by
    rw [c3]; exact hfh
  have hok' : (dec.decode fh.Data
      (((clearDirty m gameConfigsEntities).gameConfigs eid).getD dec.zero)).err = false := by
    rw [c4]; exact hok
  have h := checkForNewConfig_decodes_once dec filesToCheckEntities
    (clearDirty m gameConfigsEntities) eid fh hmem hnodup hcfg' hfh' hok'
  obtain ⟨_, _, d3, _⟩ := checkForNewConfig_rest dec filesToCheckEntities
    (clearDirty m gameConfigsEntities)
  refine ⟨?_, ?_⟩
  · simp only [Process, Store.get]
    rw [h.1, c4]
  · simp only [Process, Store.get]
    rw [d3]
    by_cases hin : eid ∈ gameConfigsEntities
    · rw [if_pos hin]; exact clearDirty_dirty_mem m gameConfigsEntities eid hin
    · rw [if_neg hin]; exact clearDirty_dirty_not_mem gameConfigsEntities m eid hin

theorem process_attaches_config_keeps_dirty_witness :
    1 ∈ [1, 2, 3] ∧ [1, 2, 3].Nodup ∧ exampleSystem.isConfigFile 1 = true
      ∧ exampleSystem.fileHandles.get 1 = some ⟨[4]⟩
      ∧ (Process exampleDecoder exampleSystem [4] [1, 2, 3]).gameConfigs.get 1 = some 4
      ∧ (Process exampleDecoder exampleSystem [4] [1, 2, 3]).dirty.get 1 = none :=
  ⟨by decide, by decide, by decide, rfl,
    (process_attaches_config_keeps_dirty exampleDecoder exampleSystem [4] [1, 2, 3] 1 ⟨[4]⟩
      (by decide) (by decide) (by decide) rfl rfl).1,
    (process_attaches_config_keeps_dirty exampleDecoder exampleSystem [4] [1, 2, 3] 1 ⟨[4]⟩
      (by decide) (by decide) (by decide) rfl rfl).2⟩

/-- Claim C2 as stated fails: entity 1 of the example world is in the
awaiting-config list, is the config file, is of type JSON and decodes
successfully, yet after the `Process` pass that attaches its GameConfig
component it has no Dirty component at all, let alone one that reads true. -/
theorem process_leaves_dirty_unset :
    subscription NewGameConfigSystem.gameConfigs [1, 2, 3, 4] exampleSystem = [4]
      ∧ subscription NewGameConfigSystem.thingsToCheck [1, 2, 3, 4] exampleSystem = [1, 2, 3]
      ∧ exampleSystem.isConfigFile 1 = true
      ∧ exampleSystem.fileHandles.get 1 = some ⟨[4]⟩
      ∧ (exampleDecoder.decode [4] exampleDecoder.zero).err = false
      ∧ (Process exampleDecoder exampleSystem [4] [1, 2, 3]).gameConfigs.get 1 = some 4
      ∧ (Process exampleDecoder exampleSystem [4] [1, 2, 3]).dirty.get 1 = none
      ∧ (Process exampleDecoder exampleSystem [4] [1, 2, 3]).dirty.get 1 ≠ some ⟨true⟩ := by
  refine ⟨by decide, by decide, by decide, rfl, rfl, by decide, by decide, by decide⟩

section frames

theorem has_congr (a b : GameConfigSystem Handle Config) (eid : EID)
    (h : a.sameButDirty b eid) (k : Kind) (hk : k ≠ Kind.Dirty) :
    a.has eid k = b.has eid k := by
  obtain ⟨h1, h2, h3, h4, h5⟩ := h
  cases k <;> first
    | exact absurd rfl hk
    | exact h5 _
    | simp only [has, h1, h2, h3, h4]

theorem thingsToCheck_congr (h1 h2 : Kind → Bool) (h : ∀ k, k ≠ Kind.Dirty → h1 k = h2 k) :
    NewGameConfigSystem.thingsToCheck.Matches h1
      = NewGameConfigSystem.thingsToCheck.Matches h2 := by
  rw [Bool.eq_iff_iff, thingsToCheck_matches_iff, thingsToCheck_matches_iff]
  simp only [h Kind.FilePath (by decide), h Kind.FileType (by decide),
    h Kind.FileHandle (by decide), h Kind.GameConfig (by decide),
    h Kind.StringTable (by decide), h Kind.DataDictionary (by decide),
    h Kind.Palette (by decide), h Kind.PaletteTransform (by decide), h Kind.Cof (by decide),
    h Kind.Dc6 (by decide), h Kind.Dcc (by decide), h Kind.Ds1 (by decide),
    h Kind.Dt1 (by decide), h Kind.Wav (by decide), h Kind.AnimData (by decide)]

theorem matches_of_sameButDirty (a b : GameConfigSystem Handle Config) (eid : EID)
    (h : a.sameButDirty b eid) :
    NewGameConfigSystem.thingsToCheck.Matches (a.has eid)
      = NewGameConfigSystem.thingsToCheck.Matches (b.has eid) :=
  thingsToCheck_congr _ _ (has_congr a b eid h)

theorem clearDirty_sameButDirty (entities : List EID) (m : GameConfigSystem Handle Config)
    (eid : EID) : (clearDirty m entities).sameButDirty m eid := by
  obtain ⟨c1, c2, c3, c4, c5, _⟩ := clearDirty_rest entities m
  exact ⟨by rw [c1], by rw [c2], by rw [c3], by rw [c4], fun k => by rw [c5]⟩

theorem frame_idle (dec : Decoder Handle Config) (entities : List EID)
    (m : GameConfigSystem Handle Config) (eid : EID)
    (hidle : NewGameConfigSystem.thingsToCheck.Matches (m.has eid) = false) :
    (frame dec entities m).sameButDirty m eid
      ∧ (frame dec entities m).decodeCount eid = m.decodeCount eid := by
  have hsame := clearDirty_sameButDirty
    (subscription NewGameConfigSystem.gameConfigs entities m) m eid
  have htrace := (clearDirty_rest (subscription NewGameConfigSystem.gameConfigs entities m) m).2.2.2.2.2
  have hidle' : NewGameConfigSystem.thingsToCheck.Matches
      ((clearDirty m (subscription NewGameConfigSystem.gameConfigs entities m)).has eid)
        = false := by
    rw [matches_of_sameButDirty _ _ eid hsame]; exact hidle
  have hnot : eid ∉ subscription NewGameConfigSystem.thingsToCheck entities
      (clearDirty m (subscription NewGameConfigSystem.gameConfigs entities m)) := by
    intro hc
    have := (List.mem_filter.mp hc).2
    rw [hidle'] at this
    cases this
  obtain ⟨⟨a1, a2, a3, a4, _, a6⟩, a7⟩ := checkForNewConfig_same dec _ _ eid (Or.inl hnot)
  obtain ⟨b1, b2, b3, b4, b5⟩ := hsame
  refine ⟨⟨a1.trans b1, a2.trans b2, a3.trans b3, a4.trans b4,
    fun k => (a6 k).trans (b5 k)⟩, ?_⟩
  simp only [frame]
  rw [a7]
  simp only [decodeCount, htrace]

theorem frames_idle (dec : Decoder Handle Config) (entities : List EID) (n : Nat)
    (m : GameConfigSystem Handle Config) (eid : EID)
    (hidle : NewGameConfigSystem.thingsToCheck.Matches (m.has eid) = false) :
    (frames dec entities n m).sameButDirty m eid
      ∧ (frames dec entities n m).decodeCount eid = m.decodeCount eid := by
  induction n generalizing m with
  | zero => exact ⟨⟨rfl, rfl, rfl, rfl, fun _ => rfl⟩, rfl⟩
  | succ n ih =>
    obtain ⟨hs, hc⟩ := frame_idle dec entities m eid hidle
    have hidle' : NewGameConfigSystem.thingsToCheck.Matches
        ((frame dec entities m).has eid) = false := by
      rw [matches_of_sameButDirty _ _ eid hs]; exact hidle
    obtain ⟨⟨a1, a2, a3, a4, a5⟩, a6⟩ := ih (frame dec entities m) hidle'
    obtain ⟨b1, b2, b3, b4, b5⟩ := hs
    simp only [frames]
    exact ⟨⟨a1.trans b1, a2.trans b2, a3.trans b3, a4.trans b4,
      fun k => (a5 k).trans (b5 k)⟩, a6.trans hc⟩

theorem frame_decodes (dec : Decoder Handle Config) (entities : List EID)
    (m : GameConfigSystem Handle Config) (eid : EID) (fh : FileHandleComponent Handle)
    (hmem : eid ∈ entities) (hnodup : entities.Nodup) (hcfg : m.isConfigFile eid = true)
    (hmatch : NewGameConfigSystem.thingsToCheck.Matches (m.has eid) = true)
    (hfh : m.fileHandles eid = some fh)
    (hok : (dec.decode fh.Data dec.zero).err = false) :
    ((frame dec entities m).gameConfigs eid).isSome = true
      ∧ (frame dec entities m).decodeCount eid = m.decodeCount eid + 1 := by
  have hnone : m.gameConfigs eid = none := by
    have h := ((thingsToCheck_matches_iff (m.has eid)).mp hmatch).2.1
    simpa [has] using h
  have hsame := clearDirty_sameButDirty
    (subscription NewGameConfigSystem.gameConfigs entities m) m eid
  obtain ⟨c1, c2, c3, c4, _, c6⟩ :=
    clearDirty_rest (subscription NewGameConfigSystem.gameConfigs entities m) m
  have hmatch' : NewGameConfigSystem.thingsToCheck.Matches
      ((clearDirty m (subscription NewGameConfigSystem.gameConfigs entities m)).has eid)
        = true := by
    rw [matches_of_sameButDirty _ _ eid hsame]; exact hmatch
  have hin : eid ∈ subscription NewGameConfigSystem.thingsToCheck entities
      (clearDirty m (subscription NewGameConfigSystem.gameConfigs entities m)) :=
    List.mem_filter.mpr ⟨hmem, hmatch'⟩
  have hnd : (subscription NewGameConfigSystem.thingsToCheck entities
      (clearDirty m (subscription NewGameConfigSystem.gameConfigs entities m))).Nodup :=
    hnodup.filter _
  have hcfg' : (clearDirty m
      (subscription NewGameConfigSystem.gameConfigs entities m)).isConfigFile eid = true := by
    simp only [isConfigFile, c1, c2]; exact hcfg
  have hfh' : (clearDirty m
      (subscription NewGameConfigSystem.gameConfigs entities m)).fileHandles eid = some fh := by
    rw [c3]; exact hfh
  have hok' : (dec.decode fh.Data (((clearDirty m
      (subscription NewGameConfigSystem.gameConfigs entities m)).gameConfigs eid).getD
        dec.zero)).err = false := by
    rw [c4, hnone]; exact hok
  obtain ⟨r1, r2⟩ := checkForNewConfig_decodes_once dec _ _ eid fh hin hnd hcfg' hfh' hok'
  simp only [frame]
  rw [r1, r2]
  refine ⟨rfl, ?_⟩
  simp only [decodeCount, c6]

end frames

/-- Claim C6 as the code has it: for an entity of the world that is the
config file of type JSON, that carries no GameConfig and none of the other
asset kinds (so that it is awaiting config once its handle is open), and
whose handle decodes successfully, the decoder is called exactly once over
any run of `Process` passes with the subscription lists recomputed between
them: not at all in the `before` passes run while the FileHandle is missing,
and once in all of the `after + 1` passes run after it has been attached,
for every `after`, which puts that one call in the first of them. -/
theorem decode_exactly_once (dec : Decoder Handle Config) (entities : List EID)
    (m : GameConfigSystem Handle Config) (eid : EID) (h : Handle)
    (hmem : eid ∈ entities) (hnodup : entities.Nodup)
    (hcfg : m.isConfigFile eid = true) (hnone : m.fileHandles.get eid = none)
    (hawait : NewGameConfigSystem.thingsToCheck.Matches
      ((m.attachHandle eid h).has eid) = true)
    (hok : (dec.decode h dec.zero).err = false) (before after : Nat) :
    (frames dec entities before m).decodeCount eid = m.decodeCount eid
      ∧ (frames dec entities (after + 1)
          ((frames dec entities before m).attachHandle eid h)).decodeCount eid
        = m.decodeCount eid + 1 := by
  have hnone' : m.fileHandles eid = none := hnone
  have hidle : NewGameConfigSystem.thingsToCheck.Matches (m.has eid) = false := by
    cases hc : NewGameConfigSystem.thingsToCheck.Matches (m.has eid) with
    | false => rfl
    | true =>
      have := ((thingsToCheck_matches_iff _).mp hc).1.2.2
      simp [has, hnone'] at this
  obtain ⟨⟨b1, b2, _, b4, b5⟩, bc⟩ := frames_idle dec entities before m eid hidle
  refine ⟨bc, ?_⟩
  have hsame : ((frames dec entities before m).attachHandle eid h).sameButDirty
      (m.attachHandle eid h) eid :=
    ⟨b1, b2, by simp [attachHandle, Store.set], b4, b5⟩
  have hmatch := (matches_of_sameButDirty _ _ eid hsame).trans hawait
  have hcfg' : ((frames dec entities before m).attachHandle eid h).isConfigFile eid = true := by
    have e1 : ((frames dec entities before m).attachHandle eid h).filePaths eid
        = m.filePaths eid := b1
    have e2 : ((frames dec entities before m).attachHandle eid h).fileTypes eid
        = m.fileTypes eid := b2
    simp only [isConfigFile, e1, e2]; exact hcfg
  have hfh : ((frames dec entities before m).attachHandle eid h).fileHandles eid
      = some ⟨h⟩ := by simp [attachHandle, Store.set]
  obtain ⟨f1, f2⟩ := frame_decodes dec entities _ eid ⟨h⟩ hmem hnodup hcfg' hmatch hfh hok
  have hidle1 : NewGameConfigSystem.thingsToCheck.Matches
      ((frame dec entities ((frames dec entities before m).attachHandle eid h)).has eid)
        = false := by
    cases hc : NewGameConfigSystem.thingsToCheck.Matches
        ((frame dec entities ((frames dec entities before m).attachHandle eid h)).has eid) with
    | false => rfl
    | true =>
      have := ((thingsToCheck_matches_iff _).mp hc).2.1
      simp only [has] at this
      rw [f1] at this
      cases this
  obtain ⟨_, ac⟩ := frames_idle dec entities after _ eid hidle1
  simp only [frames]
  rw [ac, f2]
  have : ((frames dec entities before m).attachHandle eid h).decodeCount eid
      = (frames dec entities before m).decodeCount eid := rfl
  rw [this, bc]

theorem decode_exactly_once_witness :
    1 ∈ [1, 2, 3, 4] ∧ [1, 2, 3, 4].Nodup ∧ exampleWaiting.isConfigFile 1 = true
      ∧ exampleWaiting.fileHandles.get 1 = none
      ∧ (exampleDecoder.decode [4] exampleDecoder.zero).err = false
      ∧ (frames exampleDecoder [1, 2, 3, 4] 2 exampleWaiting).decodeCount 1
          = exampleWaiting.decodeCount 1
      ∧ (frames exampleDecoder [1, 2, 3, 4] (3 + 1)
          ((frames exampleDecoder [1, 2, 3, 4] 2 exampleWaiting).attachHandle 1 [4])).decodeCount 1
        = exampleWaiting.decodeCount 1 + 1 :=
  ⟨by decide, by decide, by decide, rfl, rfl,
    decode_exactly_once exampleDecoder [1, 2, 3, 4] exampleWaiting 1 [4]
      (by decide) (by decide) (by decide) rfl (by decide) rfl 2 3⟩

/-- Claim C6 as stated fails: entity 2 of the example world is the config
file of type JSON with its handle attached, and its decode fails; `loadConfig`
then removes the GameConfig again, the entity stays in the awaiting-config
subscription, and the decoder is called for it once more in every pass.
Entity 3, a file of another name, is never decoded at all. -/
theorem decode_repeats_after_failure :
    exampleSystem.isConfigFile 2 = true
      ∧ exampleSystem.fileHandles.get 2 = some ⟨[3]⟩
      ∧ (frames exampleDecoder [1, 2, 3, 4] 1 exampleSystem).decodeCount 2 = 1
      ∧ (frames exampleDecoder [1, 2, 3, 4] 2 exampleSystem).decodeCount 2 = 2
      ∧ (frames exampleDecoder [1, 2, 3, 4] 3 exampleSystem).decodeCount 2 = 3
      ∧ (frames exampleDecoder [1, 2, 3, 4] 3 exampleSystem).decodeCount 3 = 0 := by
  refine ⟨by decide, rfl, by decide, by decide, by decide, by decide⟩

end GameConfigSystem


/-! ## Properties: objects -/

namespace Object

theorem Render_calls (ob : Object) (target : Surface) :
    (ob.Render target).2.callsSince target
      = [SurfaceCall.PushTranslation (truncate ((ob.subcellX - ob.subcellY) * 16))
          (truncate ((ob.subcellX + ob.subcellY) * 8))]
        ++ (if ob.highlight = true then [SurfaceCall.PushBrightness 2] else [])
        ++ [SurfaceCall.Render, SurfaceCall.Pop]
        ++ (if ob.highlight = true then [SurfaceCall.Pop] else []) := by
  cases hh : ob.highlight <;>
    simp [Render, hh, Surface.callsSince, Surface.PushTranslation, Surface.PushBrightness,
      Surface.Pop, Surface.compositeRender, List.append_assoc]

theorem Render_highlight (ob : Object) (target : Surface) :
    (ob.Render target).1.highlight = false := rfl

theorem Render_stack (ob : Object) (target : Surface) :
    (ob.Render target).2.stack = target.stack := by
  cases hh : ob.highlight <;>
    simp [Render, hh, Surface.PushTranslation, Surface.PushBrightness, Surface.Pop,
      Surface.compositeRender]

/-- Claim C8: `Render` pushes a brightness (the boost 2, once) exactly when the
highlight flag was set at the call, and after every `Render` the flag is
false; so after `Highlight()` the first of two `Render` calls pushes the
brightness and the second does not. -/
theorem render_highlight_one_shot (ob : Object) (target next : Surface) :
    (((ob.Render target).2.callsSince target).any SurfaceCall.isPushBrightness
        = ob.highlight)
      ∧ (ob.highlight = true →
          ((ob.Render target).2.callsSince target).filter SurfaceCall.isPushBrightness
            = [SurfaceCall.PushBrightness 2])
      ∧ (ob.Render target).1.highlight = false
      ∧ ((ob.Highlight.Render target).2.callsSince target).any SurfaceCall.isPushBrightness
          = true
      ∧ (((ob.Highlight.Render target).1.Render next).2.callsSince next).any
          SurfaceCall.isPushBrightness = false := by
  refine ⟨?_, ?_, rfl, ?_, ?_⟩
  · rw [Render_calls]
    cases hh : ob.highlight <;> simp [SurfaceCall.isPushBrightness]
  · intro hh
    rw [Render_calls]
    simp [hh, SurfaceCall.isPushBrightness, List.filter_cons]
  · rw [Render_calls]
    simp [Highlight, SurfaceCall.isPushBrightness]
  · rw [Render_calls]
    simp [Render_highlight, SurfaceCall.isPushBrightness]

theorem render_highlight_one_shot_witness :
    (((exampleObject.Highlight.Render exampleSurface).2.callsSince exampleSurface).any
        SurfaceCall.isPushBrightness = exampleObject.Highlight.highlight)
      ∧ exampleObject.Highlight.highlight = true
      ∧ ((exampleObject.Highlight.Render exampleSurface).2.callsSince exampleSurface).filter
          SurfaceCall.isPushBrightness = [SurfaceCall.PushBrightness 2] :=
  ⟨(render_highlight_one_shot exampleObject.Highlight exampleSurface exampleSurface).1, rfl,
    (render_highlight_one_shot exampleObject.Highlight exampleSurface exampleSurface).2.1 rfl⟩

/-- Claim C9: in `Render` the number of `Pop` calls equals the number of
pushes (one, or two when highlighted), every pop comes after the composite
has been rendered and every push before, and the surface's stack after
`Render` is the stack before it, so its depth is unchanged. -/
theorem render_balances_stack (ob : Object) (target : Surface) :
    ((ob.Render target).2.callsSince target).count SurfaceCall.Pop
        = ((ob.Render target).2.callsSince target).countP SurfaceCall.isPush
      ∧ ((ob.Render target).2.callsSince target).countP SurfaceCall.isPush
        = (if ob.highlight = true then 2 else 1)
      ∧ (∃ pushes pops : List SurfaceCall,
          (ob.Render target).2.callsSince target = pushes ++ [SurfaceCall.Render] ++ pops
            ∧ (∀ c ∈ pushes, c.isPush = true) ∧ (∀ c ∈ pops, c = SurfaceCall.Pop))
      ∧ (ob.Render target).2.stack = target.stack
      ∧ (ob.Render target).2.stack.length = target.stack.length := by
  refine ⟨?_, ?_, ?_, Render_stack ob target, by rw [Render_stack]⟩
  · rw [Render_calls]
    cases hh : ob.highlight <;> simp [SurfaceCall.isPush, List.count_cons, List.countP_cons]
  · rw [Render_calls]
    cases hh : ob.highlight <;> simp [SurfaceCall.isPush, List.countP_cons]
  · rw [Render_calls]
    refine ⟨[SurfaceCall.PushTranslation (truncate ((ob.subcellX - ob.subcellY) * 16))
          (truncate ((ob.subcellX + ob.subcellY) * 8))]
        ++ (if ob.highlight = true then [SurfaceCall.PushBrightness 2] else []),
      [SurfaceCall.Pop] ++ (if ob.highlight = true then [SurfaceCall.Pop] else []), ?_, ?_, ?_⟩
    · simp [List.append_assoc]
    · cases hh : ob.highlight <;> simp [SurfaceCall.isPush]
    · cases hh : ob.highlight <;> simp

theorem setMode_of_loads (ob : Object) (animationMode : ObjectAnimationMode)
    (direction : Int) (randomFrame : Bool) (seed : Nat)
    (hload : ob.composite.modeLoads animationMode = true) :
    ob.setMode animationMode direction randomFrame seed
      = (if randomFrame = true ∧ ob.objectRecord.FrameCount animationMode ≤ 0 then
          SetModeResult.panicked
        else
          SetModeResult.returned false
            { ob with
              composite :=
                { ob.composite with
                  calls := ob.composite.calls ++ ob.setModeCalls animationMode direction
                    (if randomFrame = true then
                      some ((seed : Int) % ob.objectRecord.FrameCount animationMode)
                    else none) }
              drawLayer :=
                ob.objectRecord.OrderFlag ObjectAnimationMode.ObjectAnimationModeNeutral }) := by
  unfold setMode
  simp only [Composite.call, hload, Bool.not_true, Bool.false_eq_true, if_false]
  cases randomFrame with
  | false =>
    by_cases h1 : ob.objectRecord.FrameDelta animationMode = 0 <;>
      by_cases h2 : ob.objectRecord.FrameCount animationMode = 0 <;>
        simp [setModeCalls, h1, h2, List.append_assoc]
  | true =>
    by_cases h3 : ob.objectRecord.FrameCount animationMode ≤ 0
    · simp [randIntn, h3]
    · have h2 : ob.objectRecord.FrameCount animationMode ≠ 0 := by omega
      by_cases h1 : ob.objectRecord.FrameDelta animationMode = 0 <;>
        simp [randIntn, h3, setModeCalls, h1, h2, List.append_assoc]

theorem setMode_of_fails (ob : Object) (animationMode : ObjectAnimationMode)
    (direction : Int) (randomFrame : Bool) (seed : Nat)
    (hload : ob.composite.modeLoads animationMode = false) :
    ob.setMode animationMode direction randomFrame seed
      = SetModeResult.returned true
          { ob with
            composite := ob.composite.call (CompositeCall.SetMode animationMode "HTH") } := by
  unfold setMode
  simp [Composite.call, hload]

/-- Claim C10: when `composite.SetMode` succeeds, `setMode` returns unless a
random frame is asked of a mode without frames, and whenever it returns,
`GetLayer()` is `objectRecord.OrderFlag[ObjectAnimationModeNeutral]`, whatever
the requested mode, while the composite is given the speed, frame count, loop
flag and start frame of the record at the requested mode; when
`composite.SetMode` fails, `setMode` returns the error and the draw layer is
unchanged. -/
theorem setMode_drawLayer (ob : Object) (animationMode : ObjectAnimationMode)
    (direction : Int) (randomFrame : Bool) (seed : Nat) :
    (ob.composite.modeLoads animationMode = true →
      (∀ err ob', ob.setMode animationMode direction randomFrame seed
            = SetModeResult.returned err ob' →
          ob'.GetLayer
              = ob.objectRecord.OrderFlag ObjectAnimationMode.ObjectAnimationModeNeutral
            ∧ err = false
            ∧ ob'.composite.calls = ob.composite.calls
                ++ ob.setModeCalls animationMode direction
                    (if randomFrame = true then
                      some ((seed : Int) % ob.objectRecord.FrameCount animationMode)
                    else none))
        ∧ ((randomFrame = false ∨ 0 < ob.objectRecord.FrameCount animationMode) →
            ∃ ob', ob.setMode animationMode direction randomFrame seed
              = SetModeResult.returned false ob'))
      ∧ (ob.composite.modeLoads animationMode = false →
          ∃ ob', ob.setMode animationMode direction randomFrame seed
              = SetModeResult.returned true ob'
            ∧ ob'.GetLayer = ob.GetLayer) := by
  refine ⟨fun hload => ⟨?_, ?_⟩, fun hfail => ?_⟩
  · intro err ob' hret
    rw [setMode_of_loads ob animationMode direction randomFrame seed hload] at hret
    split at hret
    · cases hret
    · injection hret with he ho
      subst ho
      exact ⟨rfl, he.symm, rfl⟩
  · intro hfine
    rw [setMode_of_loads ob animationMode direction randomFrame seed hload]
    have hno : ¬ (randomFrame = true ∧ ob.objectRecord.FrameCount animationMode ≤ 0) := by
      rintro ⟨h1, h2⟩
      rcases hfine with h | h
      · rw [h1] at h; cases h
      · omega
    rw [if_neg hno]
    exact ⟨_, rfl⟩
  · rw [setMode_of_fails ob animationMode direction randomFrame seed hfail]
    exact ⟨_, rfl, rfl⟩

theorem setMode_drawLayer_witness :
    exampleObject.composite.modeLoads ObjectAnimationMode.ObjectAnimationModeOperating = true
      ∧ (∃ ob', exampleObject.setMode ObjectAnimationMode.ObjectAnimationModeOperating 2 true 17
            = SetModeResult.returned false ob'
          ∧ ob'.GetLayer = 1
          ∧ exampleObject.objectRecord.OrderFlag
              ObjectAnimationMode.ObjectAnimationModeOperating = 2)
      ∧ exampleObject.composite.modeLoads ObjectAnimationMode.ObjectAnimationModeSpecial5 = false
      ∧ (∃ ob', exampleObject.setMode ObjectAnimationMode.ObjectAnimationModeSpecial5 2 true 17
            = SetModeResult.returned true ob'
          ∧ ob'.GetLayer = exampleObject.GetLayer) := by
  have h := setMode_drawLayer exampleObject ObjectAnimationMode.ObjectAnimationModeOperating
    2 true 17
  have h5 := setMode_drawLayer exampleObject ObjectAnimationMode.ObjectAnimationModeSpecial5
    2 true 17
  obtain ⟨ob', hob'⟩ := (h.1 (by decide)).2 (Or.inr (by decide))
  exact ⟨by decide, ⟨ob', hob', ((h.1 (by decide)).1 false ob' hob').1.trans (by decide),
    by decide⟩, by decide, h5.2 (by decide)⟩

end Object

end OpenDiablo2
